import Mathlib

/-!
Verification of the software rasterization pipeline in
`src/rasterizer/pipeline.cpp` (MyScotty3D).

Floating-point values are modelled by exact rationals (`ℚ`); machine floats'
`std::floor` is modelled by `Int.floor`.  Fixed-size attribute arrays are
modelled by `List ℚ` (the attribute-count template parameter is external to
this translation unit).  The pipeline's compile-time flag bitmask
(`pipeline.h`, not part of this translation unit) is modelled by a record of
the five independent flag axes that `pipeline.cpp` branches on.
-/

namespace Pipeline

structure Vec3 where
  x : ℚ
  y : ℚ
  z : ℚ
deriving DecidableEq

structure Vec4 where
  x : ℚ
  y : ℚ
  z : ℚ
  w : ℚ
deriving DecidableEq

/-- RGB color value (`Spectrum` in the source). -/
abbrev Spectrum := Vec3

/-- Clip-space vertex produced by vertex shading. -/
structure ShadedVertex where
  clip_position : Vec4
  attributes : List ℚ
deriving DecidableEq

/-- Framebuffer-space vertex produced by the clipper. -/
structure ClippedVertex where
  fb_position : Vec3
  inv_w : ℚ
  attributes : List ℚ
deriving DecidableEq

/-- Candidate pixel sample produced by rasterization. -/
structure Fragment where
  fb_position : Vec3
  attributes : List ℚ
  derivatives : List (ℚ × ℚ)
deriving DecidableEq

/-- Depth-test axis of the pipeline flag bitmask. -/
inductive DepthMode
  | Always
  | Never
  | Less
deriving DecidableEq

/-- Blend axis of the pipeline flag bitmask. -/
inductive BlendMode
  | Replace
  | Add
  | Over
deriving DecidableEq

/-- Attribute-interpolation axis of the pipeline flag bitmask. -/
inductive InterpMode
  | Flat
  | Smooth
  | Correct
deriving DecidableEq

inductive PrimitiveType
  | Lines
  | Triangles
deriving DecidableEq

/-- The decoded `flags` template parameter of `Pipeline`. -/
structure PipelineFlags where
  depth : DepthMode
  depthWriteDisable : Bool
  colorWriteDisable : Bool
  blend : BlendMode
  interp : InterpMode
deriving DecidableEq

/-- External framebuffer: per-pixel depth and color storage (one sample per
pixel in this core). -/
structure Framebuffer where
  width : ℕ
  height : ℕ
  depth : ℤ → ℤ → ℚ
  color : ℤ → ℤ → Spectrum

/-- `FLT_EPSILON` of IEEE-754 single precision, used by the source's
near-equality tests. -/
def FLT_EPSILON : ℚ := 1 / 2 ^ 23

/-- Closed integer interval `[lo, hi]` as a list (empty when `hi < lo`);
used to model `for` loops whose counter is an integer. -/
def irange (lo hi : ℤ) : List ℤ :=
  (List.range (hi + 1 - lo).toNat).map (fun k => lo + (k : ℤ))

-- -------------------------------------------------------------------------
-- clipping functions

/-- `Pipeline::lerp`: linear interpolation of clip position and attributes. -/
def lerp (a b : ShadedVertex) (t : ℚ) : ShadedVertex :=
  { clip_position :=
      ⟨(b.clip_position.x - a.clip_position.x) * t + a.clip_position.x,
        (b.clip_position.y - a.clip_position.y) * t + a.clip_position.y,
        (b.clip_position.z - a.clip_position.z) * t + a.clip_position.z,
        (b.clip_position.w - a.clip_position.w) * t + a.clip_position.w⟩
    attributes :=
      List.zipWith (fun aa bb => (bb - aa) * t + aa) a.attributes b.attributes }

/-- The `clip_range` helper lambda inside `Pipeline::clip_line`: restricts the
current `(min_t, max_t)` range to where `l + t*dl ≤ r + t*dr`. -/
def clip_range (l dl r dr : ℚ) (p : ℚ × ℚ) : ℚ × ℚ :=
  if dr = dl then
    if l - r > 0 then (1, 0) else p
  else if dr > dl then
    (max p.1 ((l - r) / (dr - dl)), p.2)
  else
    (p.1, min p.2 ((l - r) / (dr - dl)))

/-- The `(min_t, max_t)` range computed by `Pipeline::clip_line` from the six
half-space constraints, applied in source order starting from `(0, 1)`. -/
def clip_line_range (va vb : ShadedVertex) : ℚ × ℚ :=
  let a := va.clip_position
  let b := vb.clip_position
  let ba : Vec4 := ⟨b.x - a.x, b.y - a.y, b.z - a.z, b.w - a.w⟩
  clip_range a.z ba.z a.w ba.w
    (clip_range (-a.w) (-ba.w) a.z ba.z
      (clip_range a.y ba.y a.w ba.w
        (clip_range (-a.w) (-ba.w) a.y ba.y
          (clip_range a.x ba.x a.w ba.w
            (clip_range (-a.w) (-ba.w) a.x ba.x (0, 1))))))

/-- The flat-mode attribute override applied to interpolated clip vertices
(`if constexpr (interp == Flat) out.attributes = va.attributes`). -/
def flat_attrs (interp : InterpMode) (va : ShadedVertex) (out : ShadedVertex) :
    ShadedVertex :=
  if interp = InterpMode.Flat then { out with attributes := va.attributes } else out

/-- `Pipeline::clip_line`: emit the surviving `[min_t, max_t]` portion of the
line `va → vb` (nothing when the range is empty). -/
def clip_line (interp : InterpMode) (va vb : ShadedVertex) : List ShadedVertex :=
  if (clip_line_range va vb).1 < (clip_line_range va vb).2 then
    (if (clip_line_range va vb).1 = 0 then va
     else flat_attrs interp va (lerp va vb (clip_line_range va vb).1)) ::
    (if (clip_line_range va vb).2 = 1 then vb
     else flat_attrs interp va (lerp va vb (clip_line_range va vb).2)) :: []
  else []

/-- `Pipeline::clip_triangle`: the source is the `A1EC` TODO placeholder and
emits the three input vertices unchanged, performing no clipping. -/
def clip_triangle (va vb vc : ShadedVertex) : List ShadedVertex :=
  [va, vb, vc]

/-- The `emit_vertex` lambda of `Pipeline::run`: perspective divide plus
viewport transform with `clip_to_fb_scale = (w/2, h/2, 1/2)` and
`clip_to_fb_offset = (w/2, h/2, 1/2)`. -/
def toClipped (width height : ℕ) (sv : ShadedVertex) : ClippedVertex :=
  let inv_w : ℚ := 1 / sv.clip_position.w
  { fb_position :=
      ⟨(width / 2 : ℚ) * inv_w * sv.clip_position.x + (width / 2 : ℚ),
        (height / 2 : ℚ) * inv_w * sv.clip_position.y + (height / 2 : ℚ),
        (1 / 2 : ℚ) * inv_w * sv.clip_position.z + 1 / 2⟩
    inv_w := inv_w
    attributes := sv.attributes }

-- -------------------------------------------------------------------------
-- depth test + shade + blend loop of Pipeline::run

/-- The per-blend-mode color written by `Pipeline::run`.  `Add` and `Over` are
the `A1T4` TODO placeholders in the source: both still execute the placeholder
line `fb_color = sf.color`, ignoring the previous framebuffer color and the
fragment opacity. -/
def blendColor (blend : BlendMode) (fb_color : Spectrum) (color : Spectrum)
    (opacity : ℚ) : Spectrum :=
  match blend with
  | BlendMode.Replace => color
  | BlendMode.Add => color
  | BlendMode.Over => color

/-- `Add` blending as the spec states it (`framebuffer color += fragment color
× fragment opacity`); used only to compare against `blendColor`. -/
def spec_blend_add (fb_color : Spectrum) (color : Spectrum) (opacity : ℚ) :
    Spectrum :=
  ⟨fb_color.x + color.x * opacity, fb_color.y + color.y * opacity,
    fb_color.z + color.z * opacity⟩

/-- `Over` blending as the spec states it (`fragment color × opacity +
framebuffer color × (1 − opacity)`); used only to compare against
`blendColor`. -/
def spec_blend_over (fb_color : Spectrum) (color : Spectrum) (opacity : ℚ) :
    Spectrum :=
  ⟨color.x * opacity + fb_color.x * (1 - opacity),
    color.y * opacity + fb_color.y * (1 - opacity),
    color.z * opacity + fb_color.z * (1 - opacity)⟩

/-- The depth-test-passed path of the fragment loop in `Pipeline::run`:
depth write (unless disabled), fragment shading, then color write (unless
disabled).  The third result component is the trace of fragments for which
`shade_fragment` was invoked. -/
def passFragment (flags : PipelineFlags)
    (shade : List ℚ → List (ℚ × ℚ) → Spectrum × ℚ)
    (fb : Framebuffer) (oor : ℕ) (shaded : List Fragment) (f : Fragment)
    (x y : ℤ) : Framebuffer × ℕ × List Fragment :=
  let fb1 := if flags.depthWriteDisable then fb
    else { fb with depth := fun i j =>
            if i = x ∧ j = y then f.fb_position.z else fb.depth i j }
  let sc := shade f.attributes f.derivatives
  let fb2 := if flags.colorWriteDisable then fb1
    else { fb1 with color := fun i j =>
            if i = x ∧ j = y then blendColor flags.blend (fb1.color x y) sc.1 sc.2
            else fb1.color i j }
  (fb2, oor, shaded ++ [f])

/-- One iteration of the fragment loop of `Pipeline::run`.  Out-of-bounds
fragments are counted and skipped before any framebuffer access.  The `Less`
depth branch is the `A1T4` TODO in the source: its body is empty, so it falls
through exactly like `Always` (every fragment passes). -/
def processFragment (flags : PipelineFlags)
    (shade : List ℚ → List (ℚ × ℚ) → Spectrum × ℚ)
    (st : Framebuffer × ℕ × List Fragment) (f : Fragment) :
    Framebuffer × ℕ × List Fragment :=
  let x : ℤ := ⌊f.fb_position.x⌋
  let y : ℤ := ⌊f.fb_position.y⌋
  if x < 0 ∨ (st.1.width : ℤ) ≤ x ∨ y < 0 ∨ (st.1.height : ℤ) ≤ y then
    (st.1, st.2.1 + 1, st.2.2)
  else
    match flags.depth with
    | DepthMode.Always => passFragment flags shade st.1 st.2.1 st.2.2 f x y
    | DepthMode.Never => (st.1, st.2.1, st.2.2)
    | DepthMode.Less => passFragment flags shade st.1 st.2.1 st.2.2 f x y

/-- The fragment loop of `Pipeline::run` over a fragment list. -/
def runFragments (flags : PipelineFlags)
    (shade : List ℚ → List (ℚ × ℚ) → Spectrum × ℚ)
    (fb : Framebuffer) (frags : List Fragment) :
    Framebuffer × ℕ × List Fragment :=
  frags.foldl (processFragment flags shade) (fb, 0, [])

-- -------------------------------------------------------------------------
-- line rasterization

/-- Fragment emitted by `rasterize_line`: attributes copied from `va`,
derivatives all zero (one 2-vector per attribute). -/
def lineFrag (va : ClippedVertex) (px py pz : ℚ) : Fragment :=
  { fb_position := ⟨px, py, pz⟩
    attributes := va.attributes
    derivatives := List.replicate va.attributes.length (0, 0) }

/-- The fragment possibly emitted for the final pixel of the vertical-case
branch of `Pipeline::rasterize_line` (`yEnd` is the loop-final `y`). -/
def verticalLast (va vb : ClippedVertex) (reversed : Bool) (ax ay byv : ℚ)
    (x yEnd : ℤ) : List Fragment :=
  if |ay - yEnd - 1 / 2| + |ax - x - 1 / 2| ≤ 1 / 2 ∨ byv ≥ (yEnd : ℚ) + 1 / 2 then
    [lineFrag va (x + 1 / 2) (yEnd + 1 / 2)
      (if reversed then vb.fb_position.z else va.fb_position.z)]
  else []

/-- The vertical-case branch of `Pipeline::rasterize_line`
(`|bx − ax| < FLT_EPSILON`). -/
def rasterize_line_vertical (va vb : ClippedVertex) : List Fragment :=
  let ax := va.fb_position.x
  let ay0 := va.fb_position.y
  let by0 := vb.fb_position.y
  let reversed : Bool := decide (ay0 > by0)
  let ay := if reversed then by0 else ay0
  let byv := if reversed then ay0 else by0
  let x : ℤ := ⌊ax⌋
  let y0 : ℤ := ⌊ay⌋
  let first :=
    if |ay - y0 - 1 / 2| + |ax - x - 1 / 2| ≤ 1 / 2 ∨ ay ≤ (y0 : ℚ) + 1 / 2 then
      [lineFrag va (x + 1 / 2) (y0 + 1 / 2)
        (if reversed then va.fb_position.z else vb.fb_position.z)]
    else []
  let middle := (irange (⌊ay⌋ + 1) (⌊byv⌋ - 1)).map (fun y =>
    lineFrag va (x + 1 / 2) (y + 1 / 2)
      (if reversed then
        (va.fb_position.z * ((y : ℚ) + 1 / 2 - ay) +
          vb.fb_position.z * (byv - y - 1 / 2)) / (byv - ay)
       else
        (vb.fb_position.z * ((y : ℚ) + 1 / 2 - ay) +
          va.fb_position.z * (byv - y - 1 / 2)) / (byv - ay)))
  first ++ middle ++ verticalLast va vb reversed ax ay byv x (max (⌊ay⌋ + 1) ⌊byv⌋)

/-- The horizontal-case branch of `Pipeline::rasterize_line`
(`|slope| < FLT_EPSILON`), after the endpoint swap fixing `ax < bx`. -/
def rasterize_line_horizontal (va vb : ClippedVertex)
    (reversed : Bool) (ax ay bx : ℚ) : List Fragment :=
  let ax2 := if ax > bx then bx else ax
  let bx2 := if ax > bx then ax else bx
  let x0 : ℤ := ⌊ax2⌋
  let y : ℤ := ⌊ay⌋
  let first :=
    if |ay - y - 1 / 2| + |ax2 - x0 - 1 / 2| ≤ 1 / 2 ∨ ax2 < (x0 : ℚ) + 1 / 2 then
      [lineFrag va (x0 + 1 / 2) (y + 1 / 2)
        (if reversed then vb.fb_position.z else va.fb_position.z)]
    else []
  let middle := (irange (⌊ax2⌋ + 1) (⌊bx2⌋ - 1)).map (fun x =>
    lineFrag va (x + 1 / 2) (y + 1 / 2)
      (if reversed then
        (va.fb_position.z * ((x : ℚ) + 1 / 2 - ax2) +
          vb.fb_position.z * (bx2 - x - 1 / 2)) / (bx2 - ax2)
       else
        (vb.fb_position.z * ((x : ℚ) + 1 / 2 - ax2) +
          va.fb_position.z * (bx2 - x - 1 / 2)) / (bx2 - ax2)))
  let xEnd : ℤ := max (⌊ax2⌋ + 1) ⌊bx2⌋
  let last :=
    if |ay - y - 1 / 2| + |ax2 - xEnd - 1 / 2| ≤ 1 / 2 ∨ bx2 > (xEnd : ℚ) + 1 / 2 then
      [lineFrag va (xEnd + 1 / 2) (y + 1 / 2)
        (if reversed then va.fb_position.z else vb.fb_position.z)]
    else []
  first ++ middle ++ last

/-- Linear depth used by the sloped branches of `rasterize_line` at column
`x` (swapped endpoints according to `reversed`). -/
def lineZ (va vb : ClippedVertex) (reversed : Bool) (ax bx : ℚ) (x : ℤ) : ℚ :=
  if reversed then
    (va.fb_position.z * ((x : ℚ) + 1 / 2 - ax) +
      vb.fb_position.z * (bx - x - 1 / 2)) / (bx - ax)
  else
    (vb.fb_position.z * ((x : ℚ) + 1 / 2 - ax) +
      va.fb_position.z * (bx - x - 1 / 2)) / (bx - ax)

/-- The `+45°` diagonal branch of `Pipeline::rasterize_line`
(`|slope − 1| < FLT_EPSILON`). -/
def rasterize_line_posdiag (va vb : ClippedVertex)
    (reversed : Bool) (ax ay bx byv : ℚ) : List Fragment :=
  let x0 : ℤ := ⌊ax⌋
  let y0 : ℤ := ⌊ay⌋
  let start : ℤ × ℤ :=
    if (ay - y0) - (ax - x0) < -(1 / 2) then (x0 + 1, y0)
    else if (ay - y0) - (ax - x0) > 1 / 2 then (x0, y0 + 1)
    else (x0, y0)
  let loop := (irange start.1 (⌊bx⌋ - 1)).foldl
    (fun (st : ℤ × List Fragment) (x : ℤ) =>
      (st.1 + 1,
        st.2 ++ [lineFrag va (x + 1 / 2) (st.1 + 1 / 2) (lineZ va vb reversed ax bx x)]))
    (start.2, [])
  let last :=
    if |byv - ⌊byv⌋ - 1 / 2| + |bx - ⌊bx⌋ - 1 / 2| ≤ 1 / 2 ∨
        byv - ⌊byv⌋ + bx - ⌊bx⌋ > 3 / 2 then
      [lineFrag va (⌊bx⌋ + 1 / 2) (⌊byv⌋ + 1 / 2)
        (if reversed then va.fb_position.z else vb.fb_position.z)]
    else []
  loop.2 ++ last

/-- The `−45°` diagonal branch of `Pipeline::rasterize_line`
(`|slope + 1| < FLT_EPSILON`); note the source has no `return` here, so its
output is followed by the general-case output. -/
def rasterize_line_negdiag (va vb : ClippedVertex)
    (reversed : Bool) (ax ay bx byv : ℚ) : List Fragment :=
  let x0 : ℤ := ⌊ax⌋
  let y0 : ℤ := ⌊ay⌋
  let start : ℤ × ℤ :=
    if (ay - y0) + (ax - x0) < 1 / 2 then (x0, y0 - 1)
    else if (ay - y0) + (ax - x0) > 3 / 2 then (x0 + 1, y0)
    else (x0, y0)
  let loop := (irange start.1 (⌊bx⌋ - 1)).foldl
    (fun (st : ℤ × List Fragment) (x : ℤ) =>
      (st.1 - 1,
        st.2 ++ [lineFrag va (x + 1 / 2) (st.1 + 1 / 2) (lineZ va vb reversed ax bx x)]))
    (start.2, [])
  let last :=
    if |byv - ⌊byv⌋ - 1 / 2| + |bx - ⌊bx⌋ - 1 / 2| ≤ 1 / 2 ∨
        (byv - ⌊byv⌋) - (bx - ⌊bx⌋) < -(1 / 2) then
      [lineFrag va (⌊bx⌋ + 1 / 2) (⌊byv⌋ + 1 / 2)
        (if reversed then va.fb_position.z else vb.fb_position.z)]
    else []
  loop.2 ++ last

/-- The general Bresenham branch of `Pipeline::rasterize_line` for
`0 < slope2 < 1` (`slope2` is `|slope|`, `signslope` its sign).  When
`swapped` is true the roles of x and y were interchanged (the `slope > 1`
branch) and fragments are emitted at `(y + 0.5, x + 0.5)`. -/
def rasterize_line_general (va vb : ClippedVertex)
    (reversed : Bool) (swapped : Bool) (signslope : ℤ) (slope2 : ℚ)
    (ax ay bx byv : ℚ) : List Fragment :=
  let x0 : ℤ := ⌊ax⌋
  let y0 : ℤ := ⌊ay⌋
  let eps0 : ℚ := ay - y0 + (x0 + 1 / 2 - ax) * slope2
  let start : ℤ × ℤ × ℚ :=
    if (y0 : ℚ) + slope2 * (ax - x0 - 1 / 2) > ay then (x0 + 1, y0, eps0 + slope2)
    else if ay + (x0 + 1 / 2 - ax) * slope2 ≥ (y0 : ℚ) + 1 then
      (x0, y0 + signslope, eps0 - 1)
    else if ax - x0 + ay - y0 > 3 / 2 then
      (x0 + 1, y0 + signslope, eps0 + (slope2 - 1))
    else (x0, y0, eps0)
  let loop := (irange start.1 (⌊bx⌋ - 1)).foldl
    (fun (st : ℤ × ℚ × List Fragment) (x : ℤ) =>
      let acc := st.2.2 ++
        [if swapped then
          lineFrag va (st.1 + 1 / 2) (x + 1 / 2) (lineZ va vb reversed ax bx x)
         else
          lineFrag va (x + 1 / 2) (st.1 + 1 / 2) (lineZ va vb reversed ax bx x)]
      if st.2.1 > 1 - slope2 then (st.1 + signslope, st.2.1 + (slope2 - 1), acc)
      else (st.1, st.2.1 + slope2, acc))
    (start.2.1, start.2.2, [])
  let xEnd : ℤ := max start.1 ⌊bx⌋
  let last :=
    if |byv - loop.1 - 1 / 2| + |bx - xEnd - 1 / 2| ≤ 1 / 2 ∨ bx > (xEnd : ℚ) + 1 / 2 then
      [if swapped then
        lineFrag va (loop.1 + 1 / 2) (xEnd + 1 / 2)
          (if reversed then va.fb_position.z else vb.fb_position.z)
       else
        lineFrag va (xEnd + 1 / 2) (loop.1 + 1 / 2)
          (if reversed then va.fb_position.z else vb.fb_position.z)]
    else []
  loop.2.2 ++ last

/-- `Pipeline::rasterize_line`: emits one fragment per pixel whose inscribed
diamond is exited by the segment, via case analysis on the slope.  Lines whose
endpoints floor into the same pixel emit nothing. -/
def rasterize_line (va vb : ClippedVertex) : List Fragment :=
  let ax0 := va.fb_position.x
  let ay0 := va.fb_position.y
  let bx0 := vb.fb_position.x
  let by0 := vb.fb_position.y
  if ⌊ax0⌋ = ⌊bx0⌋ ∧ ⌊ay0⌋ = ⌊by0⌋ then []
  else if |bx0 - ax0| < FLT_EPSILON then
    rasterize_line_vertical va vb
  else
    let reversed : Bool := decide (bx0 < ax0)
    let ax := if reversed then bx0 else ax0
    let ay := if reversed then by0 else ay0
    let bx := if reversed then ax0 else bx0
    let byv := if reversed then ay0 else by0
    let slope := (byv - ay) / (bx - ax)
    if |slope| < FLT_EPSILON then
      rasterize_line_horizontal va vb reversed ax ay bx
    else if |slope - 1| < FLT_EPSILON then
      rasterize_line_posdiag va vb reversed ax ay bx byv
    else
      (if |slope + 1| < FLT_EPSILON then
        rasterize_line_negdiag va vb reversed ax ay bx byv
       else []) ++
      (let signslope : ℤ := if slope < 0 then -1 else 1
       let slope2 := if slope < 0 then -slope else slope
       if slope2 < 1 then
         rasterize_line_general va vb reversed false signslope slope2 ax ay bx byv
       else if slope2 > 1 then
         rasterize_line_general va vb reversed true signslope (1 / slope2) ay ax byv bx
       else [])

-- -------------------------------------------------------------------------
-- triangle rasterization

/-- The reordered framebuffer coordinates `ax..cz` used by the flat triangle
rasterizer (`byv`/`bz` stand for the source's `by`/`bz`). -/
structure TriCoords where
  ax : ℚ
  ay : ℚ
  az : ℚ
  bx : ℚ
  byv : ℚ
  bz : ℚ
  cx : ℚ
  cy : ℚ
  cz : ℚ
deriving DecidableEq

/-- The vertex reordering at the top of the flat branch of
`Pipeline::rasterize_triangle`: `a` is the leftmost vertex and `byv ≥ cy`
among the remaining two. -/
def sortTri (va vb vc : ClippedVertex) : TriCoords :=
  if vb.fb_position.x < vc.fb_position.x ∧ vb.fb_position.x < va.fb_position.x then
    if va.fb_position.y ≥ vc.fb_position.y then
      ⟨vb.fb_position.x, vb.fb_position.y, vb.fb_position.z,
        va.fb_position.x, va.fb_position.y, va.fb_position.z,
        vc.fb_position.x, vc.fb_position.y, vc.fb_position.z⟩
    else
      ⟨vb.fb_position.x, vb.fb_position.y, vb.fb_position.z,
        vc.fb_position.x, vc.fb_position.y, vc.fb_position.z,
        va.fb_position.x, va.fb_position.y, va.fb_position.z⟩
  else if vc.fb_position.x < vb.fb_position.x ∧ vc.fb_position.x < va.fb_position.x then
    if va.fb_position.y ≥ vb.fb_position.y then
      ⟨vc.fb_position.x, vc.fb_position.y, vc.fb_position.z,
        va.fb_position.x, va.fb_position.y, va.fb_position.z,
        vb.fb_position.x, vb.fb_position.y, vb.fb_position.z⟩
    else
      ⟨vc.fb_position.x, vc.fb_position.y, vc.fb_position.z,
        vb.fb_position.x, vb.fb_position.y, vb.fb_position.z,
        va.fb_position.x, va.fb_position.y, va.fb_position.z⟩
  else
    if vc.fb_position.y ≥ vb.fb_position.y then
      ⟨va.fb_position.x, va.fb_position.y, va.fb_position.z,
        vc.fb_position.x, vc.fb_position.y, vc.fb_position.z,
        vb.fb_position.x, vb.fb_position.y, vb.fb_position.z⟩
    else
      ⟨va.fb_position.x, va.fb_position.y, va.fb_position.z,
        vb.fb_position.x, vb.fb_position.y, vb.fb_position.z,
        vc.fb_position.x, vc.fb_position.y, vc.fb_position.z⟩

/-- The fragment emission block repeated at every site of the flat triangle
rasterizer: barycentric `lambda_1`, `lambda_2` at pixel center `(x+0.5,
y+0.5)`, interpolated depth, attributes copied from `va`, zero
derivatives. -/
def triEmit (va : ClippedVertex) (t : TriCoords) (x y : ℤ) : Fragment :=
  let lambda_1 := ((t.byv - t.cy) * (x + 1 / 2 - t.cx) +
      (t.cx - t.bx) * (y + 1 / 2 - t.cy)) /
    ((t.byv - t.cy) * (t.ax - t.cx) + (t.cx - t.bx) * (t.ay - t.cy))
  let lambda_2 := ((t.cy - t.ay) * (x + 1 / 2 - t.cx) +
      (t.ax - t.cx) * (y + 1 / 2 - t.cy)) /
    ((t.byv - t.cy) * (t.ax - t.cx) + (t.cx - t.bx) * (t.ay - t.cy))
  let interpolate_z := lambda_1 * t.az + lambda_2 * t.bz +
    (1 - lambda_1 - lambda_2) * t.cz
  { fb_position := ⟨x + 1 / 2, y + 1 / 2, interpolate_z⟩
    attributes := va.attributes
    derivatives := List.replicate va.attributes.length (0, 0) }

/-- Inner y loop `y_min < y + 0.5 ≤ y_max` of the triangle rasterizer. -/
def yRangeA (y_min y_max : ℚ) : List ℤ :=
  irange (⌊y_min - 1 / 2⌋ + 1) ⌊y_max - 1 / 2⌋

/-- Inner y loop `y_min ≤ y + 0.5 < y_max` of the triangle rasterizer. -/
def yRangeB (y_min y_max : ℚ) : List ℤ :=
  irange (-⌊1 / 2 - y_min⌋) (-⌊1 / 2 - y_max⌋ - 1)

/-- Inner y loop `y_min < y + 0.5 < y_max` of the triangle rasterizer. -/
def yRangeC (y_min y_max : ℚ) : List ℤ :=
  irange (⌊y_min - 1 / 2⌋ + 1) (-⌊1 / 2 - y_max⌋ - 1)

/-- Inner y loop `y_min ≤ y + 0.5 ≤ y_max` of the triangle rasterizer. -/
def yRangeD (y_min y_max : ℚ) : List ℤ :=
  irange (-⌊1 / 2 - y_min⌋) ⌊y_max - 1 / 2⌋

/-- One x-column sweep of the triangle rasterizer: for each `x` emit the
`yRange y_min y_max` pixels of the column, then advance `y_max` by `sh` and
`y_min` by `sl`.  Returns the final `(y_max, y_min)` and the fragments. -/
def triLoop (va : ClippedVertex) (t : TriCoords) (yRange : ℚ → ℚ → List ℤ)
    (sh sl : ℚ) (xs : List ℤ) (y_max0 y_min0 : ℚ) : ℚ × ℚ × List Fragment :=
  xs.foldl
    (fun (st : ℚ × ℚ × List Fragment) (x : ℤ) =>
      (st.1 + sh, st.2.1 + sl,
        st.2.2 ++ (yRange st.2.1 st.1).map (fun y => triEmit va t x y)))
    (y_max0, y_min0, [])

/-- Corner case `|ax − bx| < FLT_EPSILON` of the flat triangle rasterizer.
The tuple `p` is `(slope_high, slope_low, y_max, y_min)`. -/
def triSameAB (va : ClippedVertex) (t : TriCoords) : List Fragment :=
  let p : ℚ × ℚ × ℚ × ℚ :=
    if t.ay > t.byv then
      ((t.ay - t.cy) / (t.ax - t.cx), (t.byv - t.cy) / (t.bx - t.cx),
        t.ay + (t.ay - t.cy) / (t.ax - t.cx) * (⌊t.ax⌋ + 1 / 2 - t.ax),
        t.byv + (t.byv - t.cy) / (t.bx - t.cx) * (⌊t.bx⌋ + 1 / 2 - t.bx))
    else
      ((t.byv - t.cy) / (t.bx - t.cx), (t.ay - t.cy) / (t.ax - t.cx),
        t.byv + (t.ay - t.cy) / (t.ax - t.cx) * (⌊t.bx⌋ + 1 / 2 - t.bx),
        t.ay + (t.byv - t.cy) / (t.bx - t.cx) * (⌊t.ax⌋ + 1 / 2 - t.ax))
  let sh := p.1
  let sl := p.2.1
  let y_max := p.2.2.1
  let y_min := p.2.2.2
  if sh ≥ 0 then
    (triLoop va t yRangeA sh sl (irange ⌊t.ax⌋ ⌊t.cx⌋) y_max y_min).2.2
  else if sl < 0 then
    (triLoop va t yRangeB sh sl (irange ⌊t.ax⌋ ⌊t.cx⌋) y_max y_min).2.2
  else
    (triLoop va t yRangeC sh sl (irange ⌊t.ax⌋ ⌊t.cx⌋) y_max y_min).2.2

/-- Corner case `|ax − cx| < FLT_EPSILON` of the flat triangle rasterizer.
The tuple `p` is `(slope_high, slope_low, y_max, y_min)`. -/
def triSameAC (va : ClippedVertex) (t : TriCoords) : List Fragment :=
  let p : ℚ × ℚ × ℚ × ℚ :=
    if t.ay > t.cy then
      ((t.ay - t.byv) / (t.ax - t.bx), (t.cy - t.byv) / (t.cx - t.bx),
        t.ay + (t.ay - t.byv) / (t.ax - t.bx) * (⌊t.ax⌋ + 1 / 2 - t.ax),
        t.cy + (t.cy - t.byv) / (t.cx - t.bx) * (⌊t.cx⌋ + 1 / 2 - t.cx))
    else
      ((t.byv - t.cy) / (t.bx - t.cx), (t.ay - t.byv) / (t.ax - t.bx),
        t.cy + (t.ay - t.byv) / (t.ax - t.bx) * (⌊t.cx⌋ + 1 / 2 - t.cx),
        t.ay + (t.byv - t.cy) / (t.bx - t.cx) * (⌊t.ax⌋ + 1 / 2 - t.ax))
  let sh := p.1
  let sl := p.2.1
  let y_max := p.2.2.1
  let y_min := p.2.2.2
  if sh ≥ 0 then
    (triLoop va t yRangeA sh sl (irange ⌊t.ax⌋ ⌊t.bx⌋) y_max y_min).2.2
  else if sl < 0 then
    (triLoop va t yRangeB sh sl (irange ⌊t.ax⌋ ⌊t.bx⌋) y_max y_min).2.2
  else
    (triLoop va t yRangeC sh sl (irange ⌊t.ax⌋ ⌊t.bx⌋) y_max y_min).2.2

/-- Corner case `|bx − cx| < FLT_EPSILON` of the flat triangle rasterizer. -/
def triSameBC (va : ClippedVertex) (t : TriCoords) : List Fragment :=
  let sh := (t.byv - t.ay) / (t.bx - t.ax)
  let sl := (t.cy - t.ay) / (t.cx - t.ax)
  let y_max := t.ay + (⌊t.ax⌋ + 1 / 2 - t.ax) * sh
  let y_min := t.ay + (⌊t.ax⌋ + 1 / 2 - t.ax) * sl
  if sl ≥ 0 then
    (triLoop va t yRangeA sh sl (irange ⌊t.ax⌋ ⌊t.bx⌋) y_max y_min).2.2
  else if sh < 0 then
    (triLoop va t yRangeB sh sl (irange ⌊t.ax⌋ ⌊t.bx⌋) y_max y_min).2.2
  else
    (triLoop va t yRangeD sh sl (irange ⌊t.ax⌋ ⌊t.bx⌋) y_max y_min).2.2

/-- General case of the flat triangle rasterizer: sweep from `ax` to
`min(bx, cx)` between the two edges from `a`, then continue to `max(bx, cx)`
against the remaining edge `b–c`. -/
def triGeneral (va : ClippedVertex) (t : TriCoords) : List Fragment :=
  let sh0 := (t.byv - t.ay) / (t.bx - t.ax)
  let sl0 := (t.cy - t.ay) / (t.cx - t.ax)
  let sh := if sh0 < sl0 then sl0 else sh0
  let sl := if sh0 < sl0 then sh0 else sl0
  let y_max0 := t.ay + sh * (⌊t.ax⌋ + 1 / 2 - t.ax)
  let y_min0 := t.ay + sl * (⌊t.ax⌋ + 1 / 2 - t.ax)
  let xs1 := irange ⌊t.ax⌋ ⌊min t.bx t.cx⌋
  let phase1 :=
    if sl ≥ 0 then triLoop va t yRangeA sh sl xs1 y_max0 y_min0
    else if sh ≤ 0 then triLoop va t yRangeB sh sl xs1 y_max0 y_min0
    else triLoop va t yRangeD sh sl xs1 y_max0 y_min0
  let x1 : ℤ := max ⌊t.ax⌋ (⌊min t.bx t.cx⌋ + 1)
  let x_max := if t.bx > t.cx then t.bx else t.cx
  let y_max2 := phase1.1 - sh
  let y_min2 := phase1.2.1 - sl
  let slope_other := (t.byv - t.cy) / (t.bx - t.cx)
  let xs2 := irange x1 ⌊x_max⌋
  let phase2 :=
    if slope_other > 0 then
      triLoop va t yRangeA sh slope_other xs2 (y_max2 + sh) (y_min2 + slope_other)
    else if slope_other < 0 then
      triLoop va t yRangeA slope_other sl xs2 (y_max2 + slope_other) (y_min2 + sl)
    else if sh < 0 then
      triLoop va t yRangeD sh 0 xs2 (y_max2 + sh) y_min2
    else
      triLoop va t yRangeA 0 sl xs2 y_max2 (y_min2 + sl)
  phase1.2.2 ++ phase2.2.2

/-- The `Interp_Flat` branch of `Pipeline::rasterize_triangle`. -/
def rasterize_triangle_flat (va vb vc : ClippedVertex) : List Fragment :=
  let t := sortTri va vb vc
  if |t.ax - t.bx| < FLT_EPSILON then triSameAB va t
  else if |t.ax - t.cx| < FLT_EPSILON then triSameAC va t
  else if |t.bx - t.cx| < FLT_EPSILON then triSameBC va t
  else triGeneral va t

/-- The `Interp_Smooth` branch of `Pipeline::rasterize_triangle`: the source
is the `A1T5` TODO placeholder that calls the `Interp_Flat` instantiation. -/
def rasterize_triangle_smooth (va vb vc : ClippedVertex) : List Fragment :=
  rasterize_triangle_flat va vb vc

/-- The `Interp_Correct` branch of `Pipeline::rasterize_triangle`: the source
is the `A1T5` TODO placeholder that calls the `Interp_Smooth`
instantiation. -/
def rasterize_triangle_correct (va vb vc : ClippedVertex) : List Fragment :=
  rasterize_triangle_smooth va vb vc

/-- `Pipeline::rasterize_triangle`, dispatching on the interpolation flag. -/
def rasterize_triangle (interp : InterpMode) (va vb vc : ClippedVertex) :
    List Fragment :=
  match interp with
  | InterpMode.Flat => rasterize_triangle_flat va vb vc
  | InterpMode.Smooth => rasterize_triangle_smooth va vb vc
  | InterpMode.Correct => rasterize_triangle_correct va vb vc

/-- Which clip function the end-of-`run` warning blames, per primitive type. -/
def clipStageName : PrimitiveType → String
  | PrimitiveType.Lines => "clip_line"
  | PrimitiveType.Triangles => "clip_triangle"

/-- The end-of-`run` diagnostic: a warning naming the offending clip stage is
emitted exactly when the out-of-range count is nonzero. -/
def runWarning (prim : PrimitiveType) (out_of_range : ℕ) : Option String :=
  if out_of_range > 0 then some (clipStageName prim) else none

-- -------------------------------------------------------------------------
-- the full Pipeline::run composition

/-- The assemble-and-clip loop of `Pipeline::run`: consecutive disjoint
pairs (Lines) or triples (Triangles); excess trailing vertices are
ignored. -/
def clipStage (interp : InterpMode) : PrimitiveType → List ShadedVertex →
    List ShadedVertex
  | PrimitiveType.Lines, va :: vb :: rest =>
      clip_line interp va vb ++ clipStage interp PrimitiveType.Lines rest
  | PrimitiveType.Triangles, va :: vb :: vc :: rest =>
      clip_triangle va vb vc ++ clipStage interp PrimitiveType.Triangles rest
  | _, _ => []

/-- The rasterization loop of `Pipeline::run`: consecutive disjoint pairs
(Lines) or triples (Triangles) of clipped vertices. -/
def rasterStage (interp : InterpMode) : PrimitiveType → List ClippedVertex →
    List Fragment
  | PrimitiveType.Lines, va :: vb :: rest =>
      rasterize_line va vb ++ rasterStage interp PrimitiveType.Lines rest
  | PrimitiveType.Triangles, va :: vb :: vc :: rest =>
      rasterize_triangle interp va vb vc ++
        rasterStage interp PrimitiveType.Triangles rest
  | _, _ => []

/-- Observable outcome of one `Pipeline::run` call: the mutated framebuffer,
the out-of-range fragment count, the trace of fragments passed to
`shade_fragment`, and the optional end-of-run warning. -/
structure RunResult where
  framebuffer : Framebuffer
  out_of_range : ℕ
  shaded : List Fragment
  warning : Option String

/-- `Pipeline::run`: vertex shading, clipping plus perspective divide,
rasterization, then the depth-test/shade/blend fragment loop.  `shade_vertex`
and `shade_fragment` model the external `Program` with its `Parameters`
already applied. -/
def run (prim : PrimitiveType) (flags : PipelineFlags)
    (shade_vertex : List ℚ → Vec4 × List ℚ)
    (shade_fragment : List ℚ → List (ℚ × ℚ) → Spectrum × ℚ)
    (vertices : List (List ℚ)) (fb : Framebuffer) : RunResult :=
  let shaded_vertices := vertices.map (fun attrs =>
    ShadedVertex.mk (shade_vertex attrs).1 (shade_vertex attrs).2)
  let clipped_vertices := (clipStage flags.interp prim shaded_vertices).map
    (toClipped fb.width fb.height)
  let fragments := rasterStage flags.interp prim clipped_vertices
  let res := fragments.foldl (processFragment flags shade_fragment) (fb, 0, [])
  { framebuffer := res.1
    out_of_range := res.2.1
    shaded := res.2.2
    warning := runWarning prim res.2.1 }

-- -------------------------------------------------------------------------
-- concrete inputs used by the theorems below

/-- 4×4 framebuffer with all depths `1` and black color. -/
def depthFB : Framebuffer :=
  { width := 4, height := 4, depth := fun _ _ => 1, color := fun _ _ => ⟨0, 0, 0⟩ }

/-- Fragment shader returning constant white with opacity `1`. -/
def constShade : List ℚ → List (ℚ × ℚ) → Spectrum × ℚ := fun _ _ => (⟨1, 1, 1⟩, 1)

/-- Flags: depth `Less`, depth and color writes enabled, blend `Replace`. -/
def lessFlags : PipelineFlags :=
  ⟨DepthMode.Less, false, false, BlendMode.Replace, InterpMode.Flat⟩

/-- Fragment at pixel (1,1) with depth `0.3`. -/
def fragLow : Fragment := ⟨⟨3 / 2, 3 / 2, 3 / 10⟩, [], []⟩

/-- Fragment at pixel (1,1) with depth `0.7`. -/
def fragHigh : Fragment := ⟨⟨3 / 2, 3 / 2, 7 / 10⟩, [], []⟩

/-- 2×2 framebuffer whose every color cell is the premultiplied blue
`(0,0,1)`. -/
def blendFB : Framebuffer :=
  { width := 2, height := 2, depth := fun _ _ => 1, color := fun _ _ => ⟨0, 0, 1⟩ }

/-- Fragment shader returning red `(1,0,0)` with opacity `0.5`. -/
def shadeHalfRed : List ℚ → List (ℚ × ℚ) → Spectrum × ℚ := fun _ _ => (⟨1, 0, 0⟩, 1 / 2)

/-- Flags: blend `Add`, everything else permissive. -/
def addFlags : PipelineFlags :=
  ⟨DepthMode.Always, false, false, BlendMode.Add, InterpMode.Flat⟩

/-- Flags: blend `Over`, everything else permissive. -/
def overFlags : PipelineFlags :=
  ⟨DepthMode.Always, false, false, BlendMode.Over, InterpMode.Flat⟩

/-- Fragment at pixel (0,0). -/
def blendFrag : Fragment := ⟨⟨1 / 2, 1 / 2, 0⟩, [], []⟩

/-- Clip-space triangle vertex far outside the clip volume (`x = 4 > w = 1`). -/
def tva : ShadedVertex := ⟨⟨4, 0, 0, 1⟩, [1]⟩

/-- Clip-space triangle vertex inside the clip volume. -/
def tvb : ShadedVertex := ⟨⟨0, 0, 0, 1⟩, [2]⟩

/-- Clip-space triangle vertex inside the clip volume. -/
def tvc : ShadedVertex := ⟨⟨0, 1, 0, 1⟩, [3]⟩

/-- Framebuffer-space endpoint `(2.0, 1.0)` of the vertical test line. -/
def lva : ClippedVertex := ⟨⟨2, 1, 0⟩, 1, [5]⟩

/-- Framebuffer-space endpoint `(2.0, 4.0)` of the vertical test line. -/
def lvb : ClippedVertex := ⟨⟨2, 4, 1⟩, 1, [5]⟩

/-- Clip-space line endpoint at `x = −3`, outside the volume. -/
def wva : ShadedVertex := ⟨⟨-3, 0, 0, 1⟩, [5]⟩

/-- Clip-space line endpoint at `x = 3`, outside the volume. -/
def wvb : ShadedVertex := ⟨⟨3, 0, 0, 1⟩, [9]⟩

/-- Fragment whose floored position `(-1, 0)` is out of bounds. -/
def oobFrag : Fragment := ⟨⟨-1 / 2, 1 / 2, 0⟩, [], []⟩

/-- Framebuffer-space endpoints that floor into the same pixel `(0,0)`. -/
def sva : ClippedVertex := ⟨⟨1 / 10, 1 / 2, 0⟩, 1, [5]⟩

/-- Second endpoint inside pixel `(0,0)`; the segment crosses the whole
inscribed diamond. -/
def svb : ClippedVertex := ⟨⟨9 / 10, 1 / 2, 1⟩, 1, [5]⟩

/-- Flags with the color-write-disable bit set. -/
def cwFlags : PipelineFlags :=
  ⟨DepthMode.Always, false, true, BlendMode.Replace, InterpMode.Flat⟩

/-- Vertex shader mapping attributes `[x]` to clip position `(x, 0, 0, 1)`. -/
def cwShadeV : List ℚ → Vec4 × List ℚ := fun attrs => (⟨attrs.headD 0, 0, 0, 1⟩, attrs)

/-- Input vertex list: one horizontal line crossing two pixels. -/
def cwVerts : List (List ℚ) := [[-1 / 2], [1 / 2]]

end Pipeline

-- -------------------------------------------------------------------------
-- theorems

namespace Pipeline

/-- The relation maintained between a color-write-disabled run and the same
run with color writes enabled: widths, heights and depth buffers agree, and
the disabled run's color buffer is still the initial color buffer `c0`. -/
def FBRel (c0 : ℤ → ℤ → Spectrum) (fbL fbR : Framebuffer) : Prop :=
  fbL.width = fbR.width ∧ fbL.height = fbR.height ∧ fbL.depth = fbR.depth ∧
    fbL.color = c0

lemma processFragment_colorOff_step (flags : PipelineFlags)
    (h : flags.colorWriteDisable = true)
    (shade : List ℚ → List (ℚ × ℚ) → Spectrum × ℚ) (c0 : ℤ → ℤ → Spectrum)
    (stL stR : Framebuffer × ℕ × List Fragment) (f : Fragment)
    (hrel : FBRel c0 stL.1 stR.1) (hsnd : stL.2 = stR.2) :
    FBRel c0 (processFragment flags shade stL f).1
      (processFragment { flags with colorWriteDisable := false } shade stR f).1 ∧
    (processFragment flags shade stL f).2 =
      (processFragment { flags with colorWriteDisable := false } shade stR f).2 := by
  obtain ⟨fbL, oorL, trL⟩ := stL
  obtain ⟨fbR, oorR, trR⟩ := stR
  obtain ⟨hw, hh, hd, hc⟩ := hrel
  obtain ⟨h1, h2⟩ := Prod.mk.injEq .. ▸ hsnd
  subst h1; subst h2
  simp only [processFragment, passFragment, FBRel] at *
  rw [hw, hh, hd, h]
  cases flags.depth <;> split_ifs <;>
    simp_all [FBRel]

lemma runFold_colorOff (flags : PipelineFlags) (h : flags.colorWriteDisable = true)
    (shade : List ℚ → List (ℚ × ℚ) → Spectrum × ℚ) (c0 : ℤ → ℤ → Spectrum) :
    ∀ (frags : List Fragment) (stL stR : Framebuffer × ℕ × List Fragment),
      FBRel c0 stL.1 stR.1 → stL.2 = stR.2 →
      FBRel c0 (frags.foldl (processFragment flags shade) stL).1
        (frags.foldl
          (processFragment { flags with colorWriteDisable := false } shade) stR).1 ∧
      (frags.foldl (processFragment flags shade) stL).2 =
        (frags.foldl
          (processFragment { flags with colorWriteDisable := false } shade) stR).2
  | [], _, _, hrel, hsnd => ⟨hrel, hsnd⟩
  | f :: rest, stL, stR, hrel, hsnd => by
      simp only [List.foldl_cons]
      exact runFold_colorOff flags h shade c0 rest _ _
        (processFragment_colorOff_step flags h shade c0 stL stR f hrel hsnd).1
        (processFragment_colorOff_step flags h shade c0 stL stR f hrel hsnd).2

/-- C1: with depth mode `Less`, the source's depth test is an empty TODO
placeholder, so a fragment of depth 0.7 arriving after one of depth 0.3 at
the same pixel is not discarded: the stored depth ends at 0.7, not 0.3 as
the claim requires. -/
theorem depth_less_unimplemented_overwrites :
    (runFragments lessFlags constShade depthFB [fragLow, fragHigh]).1.depth 1 1 = 7 / 10 ∧
    ¬ (runFragments lessFlags constShade depthFB [fragLow, fragHigh]).1.depth 1 1 = 3 / 10 := by
  with_unfolding_all decide

/-- C2: with blend mode `Add`, the source still executes the placeholder
`fb_color = sf.color`, so blending red `(1,0,0)` at opacity 0.5 onto blue
`(0,0,1)` stores `(1,0,0)` instead of the claimed `prev + color·opacity`. -/
theorem blend_add_unimplemented_replaces :
    (runFragments addFlags shadeHalfRed blendFB [blendFrag]).1.color 0 0 = ⟨1, 0, 0⟩ ∧
    ¬ (runFragments addFlags shadeHalfRed blendFB [blendFrag]).1.color 0 0 =
        spec_blend_add (blendFB.color 0 0) ⟨1, 0, 0⟩ (1 / 2) := by
  with_unfolding_all decide

/-- C3: with blend mode `Over`, the source still executes the placeholder
`fb_color = sf.color`, so blending red `(1,0,0)` at opacity 0.5 over blue
`(0,0,1)` stores `(1,0,0)` instead of the claimed `(0.5, 0, 0.5)`. -/
theorem blend_over_unimplemented_replaces :
    (runFragments overFlags shadeHalfRed blendFB [blendFrag]).1.color 0 0 = ⟨1, 0, 0⟩ ∧
    ¬ (runFragments overFlags shadeHalfRed blendFB [blendFrag]).1.color 0 0 =
        spec_blend_over (blendFB.color 0 0) ⟨1, 0, 0⟩ (1 / 2) ∧
    spec_blend_over (blendFB.color 0 0) ⟨1, 0, 0⟩ (1 / 2) = ⟨1 / 2, 0, 1 / 2⟩ := by
  with_unfolding_all decide

/-- C4: `clip_triangle` is the TODO placeholder emitting its inputs
unchanged, so a triangle vertex with `x = 4 > w = 1` is emitted verbatim,
violating the claimed clip containment `x ≤ w`. -/
theorem clip_triangle_emits_outside_clip_volume :
    clip_triangle tva tvb tvc = [tva, tvb, tvc] ∧
    ¬ tva.clip_position.x ≤ tva.clip_position.w := by
  with_unfolding_all decide

/-- C5: the `Smooth` and `Correct` triangle branches are TODO placeholders
delegating to the `Flat` rasterizer, so the two interpolation modes emit
identical fragments for every triangle — no interior pixel can witness the
claimed divergence. -/
theorem rasterize_triangle_smooth_eq_correct (va vb vc : ClippedVertex) :
    rasterize_triangle InterpMode.Smooth va vb vc =
      rasterize_triangle InterpMode.Correct va vb vc := rfl

/-- C6: the vertical segment from `(2.0, 1.0)` to `(2.0, 4.0)` emits exactly
the fragments centered at `(2.5, 1.5)`, `(2.5, 2.5)`, `(2.5, 3.5)`, i.e.
pixels `(2,1)`, `(2,2)`, `(2,3)`, and no others. -/
theorem rasterize_line_vertical_2_1_to_2_4 :
    (rasterize_line lva lvb).map (fun f => (f.fb_position.x, f.fb_position.y)) =
      [(5 / 2, 3 / 2), (5 / 2, 5 / 2), (5 / 2, 7 / 2)] ∧
    (rasterize_line lva lvb).map (fun f => (⌊f.fb_position.x⌋, ⌊f.fb_position.y⌋)) =
      [(2, 1), (2, 2), (2, 3)] := by
  with_unfolding_all decide

/-- C7: in flat interpolation mode, `clip_line` emits nothing when
`min_t ≥ max_t`, and otherwise emits two vertices whose attributes are those
of the first input vertex `va` whenever the corresponding parameter is
interpolated (`min_t > 0` for the start, `max_t < 1` for the end). -/
theorem clip_line_flat_attributes_spec (va vb : ShadedVertex) :
    ((clip_line_range va vb).2 ≤ (clip_line_range va vb).1 →
      clip_line InterpMode.Flat va vb = []) ∧
    ((clip_line_range va vb).1 < (clip_line_range va vb).2 →
      (clip_line InterpMode.Flat va vb).length = 2) ∧
    ((clip_line_range va vb).1 < (clip_line_range va vb).2 →
      0 < (clip_line_range va vb).1 →
      (clip_line InterpMode.Flat va vb).head?.map ShadedVertex.attributes =
        some va.attributes) ∧
    ((clip_line_range va vb).1 < (clip_line_range va vb).2 →
      (clip_line_range va vb).2 < 1 →
      ((clip_line InterpMode.Flat va vb).drop 1).head?.map ShadedVertex.attributes =
        some va.attributes) := by
  refine ⟨fun h => ?_, fun h => ?_, fun h h0 => ?_, fun h h1 => ?_⟩
  · simp only [clip_line, if_neg (not_lt.mpr h)]
  · simp only [clip_line, if_pos h, List.length_cons, List.length_nil]
  · have hne : (clip_line_range va vb).1 ≠ 0 := ne_of_gt h0
    simp [clip_line, if_pos h, hne, flat_attrs]
  · have hne : (clip_line_range va vb).2 ≠ 1 := ne_of_lt h1
    simp [clip_line, if_pos h, hne, flat_attrs]

/-- C7 witness: a line entering the volume at `t = 1/3` and leaving at
`t = 2/3`; both emitted vertices carry `wva`'s attributes. -/
theorem clip_line_flat_attributes_spec_witness :
    (0 < (clip_line_range wva wvb).1 ∧
      (clip_line_range wva wvb).1 < (clip_line_range wva wvb).2 ∧
      (clip_line_range wva wvb).2 < 1) ∧
    (clip_line InterpMode.Flat wva wvb).head?.map ShadedVertex.attributes =
      some wva.attributes ∧
    ((clip_line InterpMode.Flat wva wvb).drop 1).head?.map ShadedVertex.attributes =
      some wva.attributes :=
  ⟨by with_unfolding_all decide,
    (clip_line_flat_attributes_spec wva wvb).2.2.1 (by with_unfolding_all decide)
      (by with_unfolding_all decide),
    (clip_line_flat_attributes_spec wva wvb).2.2.2 (by with_unfolding_all decide)
      (by with_unfolding_all decide)⟩

/-- C8: a fragment whose floored position is out of bounds is skipped before
any framebuffer access — the framebuffer and the shade-invocation trace are
unchanged and only the out-of-range counter is incremented — and a nonzero
final count produces the warning naming the clip stage of the primitive
type, which is exactly `run`'s warning. -/
theorem out_of_range_fragment_spec :
    (∀ (flags : PipelineFlags) (shade : List ℚ → List (ℚ × ℚ) → Spectrum × ℚ)
        (fb : Framebuffer) (oor : ℕ) (trace : List Fragment) (f : Fragment),
      (⌊f.fb_position.x⌋ < 0 ∨ (fb.width : ℤ) ≤ ⌊f.fb_position.x⌋ ∨
        ⌊f.fb_position.y⌋ < 0 ∨ (fb.height : ℤ) ≤ ⌊f.fb_position.y⌋) →
      processFragment flags shade (fb, oor, trace) f = (fb, oor + 1, trace)) ∧
    (∀ (prim : PrimitiveType) (n : ℕ), 0 < n →
      runWarning prim n = some (clipStageName prim)) ∧
    (∀ (prim : PrimitiveType) (flags : PipelineFlags)
        (sv : List ℚ → Vec4 × List ℚ)
        (sf : List ℚ → List (ℚ × ℚ) → Spectrum × ℚ)
        (verts : List (List ℚ)) (fb : Framebuffer),
      (run prim flags sv sf verts fb).warning =
        runWarning prim (run prim flags sv sf verts fb).out_of_range) := by
  refine ⟨fun flags shade fb oor trace f h => ?_, fun prim n hn => ?_,
    fun prim flags sv sf verts fb => rfl⟩
  · simp only [processFragment]
    rw [if_pos h]
  · simp only [runWarning, if_pos hn]

/-- C8 witness: the fragment at `(-0.5, 0.5)` floors to `(-1, 0)`, is counted
and skipped on a 2×2 framebuffer, and a count of 1 warns about
`clip_line`. -/
theorem out_of_range_fragment_spec_witness :
    (⌊oobFrag.fb_position.x⌋ < 0 ∨ (blendFB.width : ℤ) ≤ ⌊oobFrag.fb_position.x⌋ ∨
      ⌊oobFrag.fb_position.y⌋ < 0 ∨ (blendFB.height : ℤ) ≤ ⌊oobFrag.fb_position.y⌋) ∧
    processFragment lessFlags constShade (blendFB, 0, []) oobFrag = (blendFB, 1, []) ∧
    runWarning PrimitiveType.Lines 1 = some "clip_line" :=
  ⟨by with_unfolding_all decide,
    out_of_range_fragment_spec.1 lessFlags constShade blendFB 0 [] oobFrag
      (by with_unfolding_all decide),
    out_of_range_fragment_spec.2.1 PrimitiveType.Lines 1 (by decide)⟩

/-- C9: whenever both endpoints floor into the same pixel, `rasterize_line`
returns at the same-pixel early-out and emits no fragment at all. -/
theorem rasterize_line_same_pixel_empty (va vb : ClippedVertex)
    (hx : ⌊va.fb_position.x⌋ = ⌊vb.fb_position.x⌋)
    (hy : ⌊va.fb_position.y⌋ = ⌊vb.fb_position.y⌋) :
    rasterize_line va vb = [] := by
  simp only [rasterize_line]
  rw [if_pos ⟨hx, hy⟩]

/-- C9 witness: the segment from `(0.1, 0.5)` to `(0.9, 0.5)` stays inside
pixel `(0,0)` (while crossing its inscribed diamond) and emits nothing. -/
theorem rasterize_line_same_pixel_empty_witness :
    ⌊sva.fb_position.x⌋ = ⌊svb.fb_position.x⌋ ∧
    ⌊sva.fb_position.y⌋ = ⌊svb.fb_position.y⌋ ∧
    rasterize_line sva svb = [] :=
  ⟨by with_unfolding_all decide, by with_unfolding_all decide,
    rasterize_line_same_pixel_empty sva svb (by with_unfolding_all decide)
      (by with_unfolding_all decide)⟩

/-- C10: with the color-write-disable bit set, `run` leaves every color cell
of the framebuffer unchanged for every input vertex list, while the depth
buffer, the trace of fragments shaded, and the out-of-range count are
exactly those of the same run with color writes enabled. -/
theorem run_color_write_disabled (prim : PrimitiveType) (flags : PipelineFlags)
    (sv : List ℚ → Vec4 × List ℚ) (sf : List ℚ → List (ℚ × ℚ) → Spectrum × ℚ)
    (verts : List (List ℚ)) (fb : Framebuffer)
    (h : flags.colorWriteDisable = true) :
    (run prim flags sv sf verts fb).framebuffer.color = fb.color ∧
    (run prim flags sv sf verts fb).framebuffer.depth =
      (run prim { flags with colorWriteDisable := false } sv sf verts
        fb).framebuffer.depth ∧
    (run prim flags sv sf verts fb).shaded =
      (run prim { flags with colorWriteDisable := false } sv sf verts fb).shaded ∧
    (run prim flags sv sf verts fb).out_of_range =
      (run prim { flags with colorWriteDisable := false } sv sf verts
        fb).out_of_range := by
  have hfold := runFold_colorOff flags h sf fb.color
    (rasterStage flags.interp prim
      ((clipStage flags.interp prim
        (verts.map (fun attrs => ShadedVertex.mk (sv attrs).1 (sv attrs).2))).map
          (toClipped fb.width fb.height)))
    (fb, 0, []) (fb, 0, []) ⟨rfl, rfl, rfl, rfl⟩ rfl
  exact ⟨hfold.1.2.2.2, hfold.1.2.2.1,
    congrArg Prod.snd hfold.2, congrArg Prod.fst hfold.2⟩

/-- C10 witness: a color-write-disabled flat line run on a 2×2 framebuffer
keeps the color buffer and matches the enabled run's depth, trace and
count. -/
theorem run_color_write_disabled_witness :
    cwFlags.colorWriteDisable = true ∧
    ((run PrimitiveType.Lines cwFlags cwShadeV constShade cwVerts
        blendFB).framebuffer.color = blendFB.color ∧
      (run PrimitiveType.Lines cwFlags cwShadeV constShade cwVerts
          blendFB).framebuffer.depth =
        (run PrimitiveType.Lines { cwFlags with colorWriteDisable := false }
          cwShadeV constShade cwVerts blendFB).framebuffer.depth ∧
      (run PrimitiveType.Lines cwFlags cwShadeV constShade cwVerts
          blendFB).shaded =
        (run PrimitiveType.Lines { cwFlags with colorWriteDisable := false }
          cwShadeV constShade cwVerts blendFB).shaded ∧
      (run PrimitiveType.Lines cwFlags cwShadeV constShade cwVerts
          blendFB).out_of_range =
        (run PrimitiveType.Lines { cwFlags with colorWriteDisable := false }
          cwShadeV constShade cwVerts blendFB).out_of_range) :=
  ⟨rfl, run_color_write_disabled PrimitiveType.Lines cwFlags cwShadeV constShade
    cwVerts blendFB rfl⟩

end Pipeline
